import Mathlib

/-!
Verification development for the `lofitui` repository: a terminal menu
application whose core is a keyboard-driven state machine (`model.Update`
in `main.go`) over nine view states, backed by a JSON configuration file
(`loadConfig` / `saveConfig` / `getDefaultConfig`).

The Go code is shallowly embedded: structs become Lean structures, the
`Update` method becomes a pure function threading an explicit disk state,
and the external file system / JSON standard library are modelled where
noted.  External Bubble Tea widgets (list cursor movement, text editing,
spinner) are abstracted as parameters of the step function, since their
internals are library code outside this repository.
-/

namespace Lofitui

/-- Source: `Preset` (config source file) — a single lofi stream, fields
`Name`/`URL`, JSON tags `name`/`url`. -/
structure Preset where
  name : String
  url : String
deriving DecidableEq, Repr

/-- Source: `Config` — the application configuration, field `Presets`
(ordered list). -/
structure Config where
  presets : List Preset
deriving DecidableEq, Repr

/-- Source: `getDefaultConfig` — the fixed list of 10 default presets. -/
def getDefaultConfig : Config :=
  ⟨[⟨"Lofi Girl - Study", "https://www.youtube.com/watch?v=jfKfPfyJRdk"⟩,
    ⟨"Lofi Girl - Sleep", "https://www.youtube.com/watch?v=DWcJFNfaw9c"⟩,
    ⟨"Lofi Girl - Jazz", "https://www.youtube.com/watch?v=HuFYqnbVbzY"⟩,
    ⟨"Synthwave Radio", "https://www.youtube.com/watch?v=4xDzrJKXOOY"⟩,
    ⟨"Chillhop Music", "https://www.youtube.com/watch?v=5yx6BWlEVcY"⟩,
    ⟨"The Bootleg Boy", "https://www.youtube.com/watch?v=FWjZ0x2M8og"⟩,
    ⟨"Dreamhop Music", "https://www.youtube.com/live/D5bqo8lcny4"⟩,
    ⟨"Lofi Geek", "https://www.youtube.com/watch?v=1tJ8sc8I4z0"⟩,
    ⟨"STEEZYASFUCK", "https://www.youtube.com/watch?v=S_MOd40zlYU"⟩,
    ⟨"Homework Radio", "https://www.youtube.com/watch?v=lTRiuFIWV54"⟩]⟩

/-- Lowercase hex digit, as used by Go's `encoding/json` encoder. -/
def hexDigitChar (n : Nat) : Char :=
  if n < 10 then Char.ofNat (48 + n) else Char.ofNat (87 + n)

/-- Modelled from the spec: Go's `encoding/json` string escaping (not part
of this repository), used by `json.MarshalIndent` in `saveConfig`.  The
encoder (with its default HTML escaping) emits `\"`, `\\`, `\n`, `\r`,
`\t`, escapes other control characters as `\u00xx`, escapes `<`, `>`, `&`
as `<`/`>`/`&`, and escapes U+2028/U+2029; every other
character is emitted verbatim. -/
def escapeChar (c : Char) : List Char :=
  if c = '"' then ['\\', '"']
  else if c = '\\' then ['\\', '\\']
  else if c = '\n' then ['\\', 'n']
  else if c = '\r' then ['\\', 'r']
  else if c = '\t' then ['\\', 't']
  else if c = '<' then ['\\', 'u', '0', '0', '3', 'c']
  else if c = '>' then ['\\', 'u', '0', '0', '3', 'e']
  else if c = '&' then ['\\', 'u', '0', '0', '2', '6']
  else if c.toNat < 32 then
    ['\\', 'u', '0', '0', hexDigitChar (c.toNat / 16), hexDigitChar (c.toNat % 16)]
  else if c.toNat = 8232 then ['\\', 'u', '2', '0', '2', '8']
  else if c.toNat = 8233 then ['\\', 'u', '2', '0', '2', '9']
  else [c]

/-- Escape every character of a string body. -/
def escListAux : List Char → List Char
  | [] => []
  | c :: cs => escapeChar c ++ escListAux cs

/-- A JSON string literal: opening quote, escaped body, closing quote. -/
def quoteJString (s : String) : List Char :=
  '"' :: (escListAux s.data ++ ['"'])

/-- Literal fragment: indented object opening and `"name": ` key of one
preset, as produced by `json.MarshalIndent(config, "", "  ")`. -/
def litItemPre : List Char := "    \x7b\n      \"name\": ".data

/-- Literal fragment between the name value and the `"url": ` key. -/
def litItemMid : List Char := ",\n      \"url\": ".data

/-- Literal fragment closing one preset object. -/
def litItemPost : List Char := "\n    \x7d".data

/-- Literal fragment separating two array elements. -/
def litSep : List Char := ",\n".data

/-- Literal fragment: the empty presets array. -/
def litArrEmpty : List Char := "[]".data

/-- Literal fragment opening a non-empty presets array. -/
def litArrOpen : List Char := "[\n".data

/-- Literal fragment closing a non-empty presets array. -/
def litArrClose : List Char := "\n  ]".data

/-- Literal fragment: document opening with the `"presets": ` key. -/
def litDocPre : List Char := "\x7b\n  \"presets\": ".data

/-- Literal fragment: document closing. -/
def litDocPost : List Char := "\n\x7d".data

/-- Serialize one preset object at array-element indentation. -/
def renderPresetL (p : Preset) : List Char :=
  litItemPre ++ quoteJString p.name ++ litItemMid ++ quoteJString p.url ++ litItemPost

/-- Serialize the second and later elements of the presets array, each
preceded by the `,\n` separator. -/
def renderRestL : List Preset → List Char
  | [] => []
  | p :: ps => litSep ++ renderPresetL p ++ renderRestL ps

/-- Serialize the presets array (`[]` when empty). -/
def renderPresetsL : List Preset → List Char
  | [] => litArrEmpty
  | p :: ps => litArrOpen ++ renderPresetL p ++ renderRestL ps ++ litArrClose

/-- Modelled from the spec: the exact bytes `saveConfig` writes — Go's
`json.MarshalIndent(config, "", "  ")` output for the `Config` struct
(object with one `presets` key holding the array of `name`/`url`
objects, two-space indentation, no trailing newline). -/
def marshalConfig (c : Config) : String :=
  ⟨litDocPre ++ renderPresetsL c.presets ++ litDocPost⟩

/-- Decode one hex digit (both cases accepted, as in JSON). -/
def decodeHexDigit (c : Char) : Option Nat :=
  if 48 ≤ c.toNat ∧ c.toNat ≤ 57 then some (c.toNat - 48)
  else if 97 ≤ c.toNat ∧ c.toNat ≤ 102 then some (c.toNat - 87)
  else if 65 ≤ c.toNat ∧ c.toNat ≤ 70 then some (c.toNat - 55)
  else none

/-- Modelled from the spec: JSON string body parsing (Go's
`encoding/json` decoder, not part of this repository).  Consumes
characters up to an unescaped closing quote, decoding the escape
sequences the encoder can produce. -/
def parseJStringAux : List Char → Option (List Char × List Char)
  | [] => none
  | c :: rest =>
    if c = '"' then some ([], rest)
    else if c = '\\' then
      match rest with
      | 'u' :: h1 :: h2 :: h3 :: h4 :: rest2 =>
        match decodeHexDigit h1, decodeHexDigit h2, decodeHexDigit h3, decodeHexDigit h4 with
        | some a, some b, some x, some y =>
          match parseJStringAux rest2 with
          | some (cs, r) => some (Char.ofNat (((a * 16 + b) * 16 + x) * 16 + y) :: cs, r)
          | none => none
        | _, _, _, _ => none
      | e :: rest2 =>
        match
          (if e = '"' then some '"'
           else if e = '\\' then some '\\'
           else if e = '/' then some '/'
           else if e = 'n' then some '\n'
           else if e = 'r' then some '\r'
           else if e = 't' then some '\t'
           else none) with
        | some ec =>
          match parseJStringAux rest2 with
          | some (cs, r) => some (ec :: cs, r)
          | none => none
        | none => none
      | [] => none
    else
      match parseJStringAux rest with
      | some (cs, r) => some (c :: cs, r)
      | none => none

/-- Parse a JSON string literal (opening quote, body, closing quote). -/
def parseJStringL (l : List Char) : Option (String × List Char) :=
  match l with
  | '"' :: rest =>
    match parseJStringAux rest with
    | some (cs, r) => some (⟨cs⟩, r)
    | none => none
  | _ => none

/-- Consume an exact expected character sequence from the input. -/
def expectChars : List Char → List Char → Option (List Char)
  | [], input => some input
  | _ :: _, [] => none
  | p :: ps, c :: cs => if c = p then expectChars ps cs else none

/-- Parse one preset object in the indented format `renderPresetL`
produces. -/
def parsePresetL (l : List Char) : Option (Preset × List Char) :=
  match expectChars litItemPre l with
  | none => none
  | some l1 =>
    match parseJStringL l1 with
    | none => none
    | some (nm, l2) =>
      match expectChars litItemMid l2 with
      | none => none
      | some l3 =>
        match parseJStringL l3 with
        | none => none
        | some (u, l4) =>
          match expectChars litItemPost l4 with
          | none => none
          | some l5 => some (⟨nm, u⟩, l5)

/-- Parse the elements after the first one: either the array closing
fragment, or a separator followed by another preset.  `fuel` bounds the
recursion by the input length. -/
def parseItemsRest : Nat → List Char → Option (List Preset × List Char)
  | 0, _ => none
  | fuel + 1, l =>
    match expectChars litArrClose l with
    | some rest => some ([], rest)
    | none =>
      match expectChars litSep l with
      | none => none
      | some l1 =>
        match parsePresetL l1 with
        | none => none
        | some (p, l2) =>
          match parseItemsRest fuel l2 with
          | some (ps, r) => some (p :: ps, r)
          | none => none

/-- Parse the presets array: `[]`, or `[\n` followed by a first preset and
then `parseItemsRest`. -/
def parsePresetsL (fuel : Nat) (l : List Char) : Option (List Preset × List Char) :=
  match expectChars litArrEmpty l with
  | some rest => some ([], rest)
  | none =>
    match expectChars litArrOpen l with
    | none => none
    | some l1 =>
      match parsePresetL l1 with
      | none => none
      | some (p, l2) =>
        match parseItemsRest fuel l2 with
        | some (ps, r) => some (p :: ps, r)
        | none => none

/-- Modelled from the spec: `json.Unmarshal` into `Config` (Go standard
library, not part of this repository), specified here on the document
format `saveConfig` writes; any other content is a parse failure.
Trailing content after the document is rejected, as `json.Unmarshal`
rejects trailing garbage. -/
def parseConfigL (l : List Char) : Option Config :=
  match expectChars litDocPre l with
  | none => none
  | some l1 =>
    match parsePresetsL l.length l1 with
    | none => none
    | some (ps, l2) =>
      match expectChars litDocPost l2 with
      | some [] => some ⟨ps⟩
      | _ => none

/-- String-level entry point of the modelled JSON config parser. -/
def parseConfigStr (s : String) : Option Config :=
  parseConfigL s.data

/-- Modelled from the spec: the state of the config file on disk as seen
through the generic file-system interface — absent (`os.Stat` reports
not-exist), present but unreadable (`os.ReadFile` fails), or present with
given contents. -/
inductive FileState
  | absent
  | unreadable
  | contents (data : String)
deriving DecidableEq, Repr

/-- Source: the error taxonomy of `loadConfig` — `failed to read config`
(IO) and `failed to parse config` (JSON). -/
inductive ConfigError
  | ioError
  | parseError
deriving DecidableEq, Repr

/-- Source: `loadConfig` — returns defaults when the file does not exist,
an IO error when the file exists but cannot be read, a parse error on
malformed JSON, and the parsed configuration otherwise. -/
def loadConfig : FileState → Except ConfigError Config
  | .absent => .ok getDefaultConfig
  | .unreadable => .error .ioError
  | .contents s =>
    match parseConfigStr s with
    | some c => .ok c
    | none => .error .parseError

/-- Modelled from the spec: the on-disk world `saveConfig` writes through —
the config file plus whether writes succeed (directory creation or file
write can fail). -/
structure Disk where
  file : FileState
  writable : Bool
deriving DecidableEq, Repr

/-- Source: `saveConfig` — marshals the configuration with two-space
indentation and writes the file in full; returns the updated disk and
whether the write succeeded (the Go function's `error` result). -/
def saveConfig (c : Config) (d : Disk) : Disk × Bool :=
  if d.writable then ({ d with file := .contents (marshalConfig c) }, true)
  else (d, false)

/-- Source: the `viewState` enumeration in `main.go`. -/
inductive ViewState
  | mainMenuView
  | customURLView
  | quitConfirmView
  | loadingView
  | managePresetsView
  | addPresetView
  | editPresetView
  | deleteConfirmView
  | restoreDefaultsConfirmView
deriving DecidableEq, Repr

/-- The state of the Bubble Tea list widget that `main.go` observes and
drives: the backing items, the highlighted index (`Index()`), and the
dimensions set by `SetWidth`/`SetHeight`. -/
structure ListModel where
  items : List Preset
  cursor : Nat
  width : Int
  height : Int
deriving DecidableEq, Repr

/-- Source: `m.list.SelectedItem()` with the `Preset` type assertion —
the item at the highlighted index, or none when out of range (in
particular when the list is empty). -/
def ListModel.selectedItem (l : ListModel) : Option Preset :=
  l.items.get? l.cursor

/-- Modelled from the spec: the Selectable List's `replace(entries)`
operation (the Bubble Tea list widget's `SetItems`, library code outside
this repository) — "resets the backing sequence and clamps the
highlighted index into range". -/
def ListModel.setItems (l : ListModel) (items : List Preset) : ListModel :=
  { l with
    items := items
    cursor := if items.length = 0 then 0 else min l.cursor (items.length - 1) }

/-- The messages `model.Update` dispatches on: resolver results
(`streamURLMsg`, with `err` true for a non-nil error), player completion
(`streamEndedMsg`), terminal resizes (`tea.WindowSizeMsg`), key presses
(`tea.KeyMsg`, identified by its `String()`), and spinner ticks (any
other message type falls through to the widget-update section). -/
inductive Msg
  | streamURLMsg (url : String) (err : Bool)
  | streamEndedMsg
  | windowSizeMsg (width height : Int)
  | keyMsg (key : String)
  | spinnerTickMsg
deriving DecidableEq, Repr

/-- The commands `main.go` itself returns from `Update`: none (`nil`),
quit (`tea.Quit`), the text-input cursor blink, the batched
spinner-tick-plus-`extractStreamURL` resolution command, and `playMPV`.
Widget-internal commands returned by the library `Update` calls are not
modelled. -/
inductive Cmd
  | none
  | quit
  | blink
  | resolveAndPlay (url : String)
  | playMPV (url : String)
deriving DecidableEq, Repr

/-- Source: the `model` struct in `main.go`.  The three text inputs are
modelled by their string values (`Value()`); their focus/blur and
placeholder state is display-only and not modelled.  The spinner is an
opaque widget state. -/
structure Model where
  list : ListModel
  textInput : String
  nameInput : String
  urlInput : String
  spinner : Nat
  config : Config
  state : ViewState
  quitting : Bool
  width : Int
  height : Int
  ready : Bool
  loadingTitle : String
  selectedIndex : Nat
  focusedInput : Nat
  textInputWidth : Int
deriving DecidableEq, Repr

/-- One step of `model.Update`: the returned model, the returned
`tea.Cmd`, and the disk after any `saveConfig` side effects. -/
structure Step where
  model : Model
  cmd : Cmd
  disk : Disk
deriving DecidableEq, Repr

/-- The external Bubble Tea widget `Update` functions that unhandled
messages are delegated to (library code outside this repository): list
navigation, text-input editing, and spinner animation.  The state-machine
theorems hold for every choice of these. -/
structure Widgets where
  listUpdate : ListModel → Msg → ListModel
  textUpdate : String → Msg → String
  spinnerUpdate : Nat → Msg → Nat

/-- Identity widgets, used to evaluate the step function on concrete
inputs. -/
def idWidgets : Widgets :=
  ⟨fun l _ => l, fun t _ => t, fun s _ => s⟩

/-- Source: Go's `unicode.IsSpace` — the Unicode White_Space property
(the character set `strings.TrimSpace` trims). -/
def isGoSpace (c : Char) : Bool :=
  let n := c.toNat
  n = 32 ∨ (9 ≤ n ∧ n ≤ 13) ∨ n = 133 ∨ n = 160 ∨ n = 5760 ∨
    (8192 ≤ n ∧ n ≤ 8202) ∨ n = 8232 ∨ n = 8233 ∨ n = 8239 ∨ n = 8287 ∨ n = 12288

/-- Source: `strings.TrimSpace` — drop leading and trailing White_Space
characters. -/
def trimSpace (s : String) : String :=
  ⟨((s.data.dropWhile isGoSpace).reverse.dropWhile isGoSpace).reverse⟩

/-- Source: `refreshList` in `main.go` — rebuild the list items from the
configuration's presets. -/
def refreshList (m : Model) : Model :=
  { m with list := m.list.setItems m.config.presets }

/-- Source: the `tea.KeyMsg` branch of `model.Update`.  Returns `some`
for the key/state combinations that hit an early `return` in the Go
switch, and `none` for keys that fall through to the widget-update
section.  The disk is threaded through the `saveConfig` calls, whose
`error` result is discarded exactly as in the source. -/
def handleKey (m : Model) (k : String) (d : Disk) : Option Step :=
  match m.state with
  | .mainMenuView =>
    if k = "ctrl+c" ∨ k = "q" then some ⟨{ m with state := .quitConfirmView }, .none, d⟩
    else if k = "c" then some ⟨{ m with state := .customURLView }, .blink, d⟩
    else if k = "m" then some ⟨{ m with state := .managePresetsView }, .none, d⟩
    else if k = "enter" then
      match m.list.selectedItem with
      | some preset =>
        some ⟨{ m with state := .loadingView, loadingTitle := preset.name },
          .resolveAndPlay preset.url, d⟩
      | none => none
    else none
  | .customURLView =>
    if k = "ctrl+c" ∨ k = "esc" then
      some ⟨{ m with state := .mainMenuView, textInput := "" }, .none, d⟩
    else if k = "enter" then
      if m.textInput ≠ "" then
        some ⟨{ m with state := .loadingView, loadingTitle := "Custom Stream", textInput := "" },
          .resolveAndPlay m.textInput, d⟩
      else none
    else none
  | .quitConfirmView =>
    if k = "y" ∨ k = "Y" then some ⟨{ m with quitting := true }, .quit, d⟩
    else if k = "n" ∨ k = "N" ∨ k = "esc" then
      some ⟨{ m with state := .mainMenuView }, .none, d⟩
    else none
  | .managePresetsView =>
    if k = "esc" then some ⟨{ m with state := .mainMenuView }, .none, d⟩
    else if k = "a" then
      some ⟨{ m with state := .addPresetView, nameInput := "", urlInput := "", focusedInput := 0 },
        .blink, d⟩
    else if k = "e" then
      match m.list.selectedItem with
      | some preset =>
        some ⟨{ m with state := .editPresetView, selectedIndex := m.list.cursor
                       nameInput := preset.name, urlInput := preset.url, focusedInput := 0 },
          .blink, d⟩
      | none => none
    else if k = "d" ∨ k = "x" then
      some ⟨{ m with state := .deleteConfirmView, selectedIndex := m.list.cursor }, .none, d⟩
    else if k = "r" then
      some ⟨{ m with state := .restoreDefaultsConfirmView }, .none, d⟩
    else if k = "enter" then
      match m.list.selectedItem with
      | some preset =>
        some ⟨{ m with state := .loadingView, loadingTitle := preset.name },
          .resolveAndPlay preset.url, d⟩
      | none => none
    else none
  | .addPresetView =>
    if k = "esc" then some ⟨{ m with state := .managePresetsView }, .none, d⟩
    else if k = "tab" ∨ k = "shift+tab" then
      some ⟨{ m with focusedInput := if m.focusedInput = 0 then 1 else 0 }, .blink, d⟩
    else if k = "enter" then
      let name := trimSpace m.nameInput
      let url := trimSpace m.urlInput
      if name ≠ "" ∧ url ≠ "" then
        let cfg : Config := ⟨m.config.presets ++ [⟨name, url⟩]⟩
        some ⟨{ refreshList { m with config := cfg } with state := .managePresetsView },
          .none, (saveConfig cfg d).1⟩
      else some ⟨m, .none, d⟩
    else none
  | .editPresetView =>
    if k = "esc" then some ⟨{ m with state := .managePresetsView }, .none, d⟩
    else if k = "tab" ∨ k = "shift+tab" then
      some ⟨{ m with focusedInput := if m.focusedInput = 0 then 1 else 0 }, .blink, d⟩
    else if k = "enter" then
      let name := trimSpace m.nameInput
      let url := trimSpace m.urlInput
      if name ≠ "" ∧ url ≠ "" ∧ m.selectedIndex < m.config.presets.length then
        let cfg : Config := ⟨m.config.presets.set m.selectedIndex ⟨name, url⟩⟩
        some ⟨{ refreshList { m with config := cfg } with state := .managePresetsView },
          .none, (saveConfig cfg d).1⟩
      else some ⟨m, .none, d⟩
    else none
  | .deleteConfirmView =>
    if k = "y" ∨ k = "Y" then
      if m.selectedIndex < m.config.presets.length then
        let cfg : Config := ⟨m.config.presets.eraseIdx m.selectedIndex⟩
        some ⟨{ refreshList { m with config := cfg } with state := .managePresetsView },
          .none, (saveConfig cfg d).1⟩
      else some ⟨{ m with state := .managePresetsView }, .none, d⟩
    else if k = "n" ∨ k = "N" ∨ k = "esc" then
      some ⟨{ m with state := .managePresetsView }, .none, d⟩
    else none
  | .restoreDefaultsConfirmView =>
    if k = "y" ∨ k = "Y" then
      let cfg := getDefaultConfig
      some ⟨{ refreshList { m with config := cfg } with state := .managePresetsView },
        .none, (saveConfig cfg d).1⟩
    else if k = "n" ∨ k = "N" ∨ k = "esc" then
      some ⟨{ m with state := .managePresetsView }, .none, d⟩
    else none
  | .loadingView => none

/-- Source: the widget-update section at the end of `model.Update`,
reached by messages not returned early: depending on the state, the
message is delegated to the list, the custom-URL text input, the spinner,
or (for add/edit) whichever of the two inputs has focus; the confirm
states have no widget and leave the model unchanged. -/
def widgetDispatch (W : Widgets) (m : Model) (msg : Msg) : Model :=
  match m.state with
  | .mainMenuView => { m with list := W.listUpdate m.list msg }
  | .managePresetsView => { m with list := W.listUpdate m.list msg }
  | .customURLView => { m with textInput := W.textUpdate m.textInput msg }
  | .loadingView => { m with spinner := W.spinnerUpdate m.spinner msg }
  | .addPresetView =>
    if m.focusedInput = 0 then { m with nameInput := W.textUpdate m.nameInput msg }
    else { m with urlInput := W.textUpdate m.urlInput msg }
  | .editPresetView =>
    if m.focusedInput = 0 then { m with nameInput := W.textUpdate m.nameInput msg }
    else { m with urlInput := W.textUpdate m.urlInput msg }
  | _ => m

/-- Source: `model.Update` in `main.go` — the whole message dispatch:
resolver results, player completion, window resizes (with the
clamped list height and input width), key handling, and the fall-through
widget-update section. -/
def update (W : Widgets) (m : Model) (msg : Msg) (d : Disk) : Step :=
  match msg with
  | .streamURLMsg url err =>
    if err then ⟨{ m with state := .mainMenuView }, .none, d⟩
    else ⟨m, .playMPV url, d⟩
  | .streamEndedMsg => ⟨{ m with state := .mainMenuView }, .none, d⟩
  | .windowSizeMsg w h =>
    let listHeight := if h - 4 < 5 then 5 else h - 4
    let inputWidth0 := if w - 20 < 30 then 30 else w - 20
    let inputWidth := if inputWidth0 > 80 then 80 else inputWidth0
    ⟨{ m with width := w, height := h, ready := true
              list := { m.list with width := w, height := listHeight }
              textInputWidth := inputWidth },
      .none, d⟩
  | .keyMsg k =>
    match handleKey m k d with
    | some st => st
    | none => ⟨widgetDispatch W m (.keyMsg k), .none, d⟩
  | .spinnerTickMsg => ⟨widgetDispatch W m .spinnerTickMsg, .none, d⟩

/-- The model `initialModel` builds from a loaded or default
configuration: list over the presets with cursor 0, width 20 and height
equal to the item count (`list.New(items, itemDelegate, 20, len(items))`),
all inputs empty with width 50, main-menu state. -/
def mkModel (c : Config) : Model :=
  { list := ⟨c.presets, 0, 20, (c.presets.length : Int)⟩
    textInput := ""
    nameInput := ""
    urlInput := ""
    spinner := 0
    config := c
    state := .mainMenuView
    quitting := false
    width := 0
    height := 0
    ready := false
    loadingTitle := ""
    selectedIndex := 0
    focusedInput := 0
    textInputWidth := 50 }

/-- Source: `initialModel` in `main.go` — load the configuration; on any
load error fall back to the defaults and attempt a save whose error is
ignored (`_ = saveConfig(config)`). -/
def initialModel (d : Disk) : Model × Disk :=
  match loadConfig d.file with
  | .ok c => (mkModel c, d)
  | .error _ =>
    let c := getDefaultConfig
    (mkModel c, (saveConfig c d).1)

/-- The four configuration-mutating completions of the state machine:
confirmed add, confirmed edit (valid index), confirmed delete (valid
index), and confirmed restore-defaults, each with the guards the source
checks before mutating. -/
def mutatingEvent (m : Model) (msg : Msg) : Prop :=
  (m.state = .addPresetView ∧ msg = .keyMsg "enter" ∧
    trimSpace m.nameInput ≠ "" ∧ trimSpace m.urlInput ≠ "") ∨
  (m.state = .editPresetView ∧ msg = .keyMsg "enter" ∧
    trimSpace m.nameInput ≠ "" ∧ trimSpace m.urlInput ≠ "" ∧
    m.selectedIndex < m.config.presets.length) ∨
  (m.state = .deleteConfirmView ∧ (msg = .keyMsg "y" ∨ msg = .keyMsg "Y") ∧
    m.selectedIndex < m.config.presets.length) ∨
  (m.state = .restoreDefaultsConfirmView ∧ (msg = .keyMsg "y" ∨ msg = .keyMsg "Y"))

instance (m : Model) (msg : Msg) : Decidable (mutatingEvent m msg) := by
  unfold mutatingEvent
  exact inferInstance

lemma expectChars_append (p rest : List Char) : expectChars p (p ++ rest) = some rest := by
  induction p with
  | nil => rfl
  | cons c cs ih => simp [expectChars, ih]

lemma decodeHexDigit_hexDigitChar : ∀ n : Nat, n < 16 → decodeHexDigit (hexDigitChar n) = some n := by
  decide

lemma parseJStringAux_escapeChar (c : Char) (l cs r : List Char)
    (h : parseJStringAux l = some (cs, r)) :
    parseJStringAux (escapeChar c ++ l) = some (c :: cs, r) := by
  have d0 : decodeHexDigit '0' = some 0 := rfl
  have d2 : decodeHexDigit '2' = some 2 := rfl
  have d3 : decodeHexDigit '3' = some 3 := rfl
  have d6 : decodeHexDigit '6' = some 6 := rfl
  have d8 : decodeHexDigit '8' = some 8 := rfl
  have d9 : decodeHexDigit '9' = some 9 := rfl
  have dc : decodeHexDigit 'c' = some 12 := rfl
  have de : decodeHexDigit 'e' = some 14 := rfl
  have clt : Char.ofNat (((0 * 16 + 0) * 16 + 3) * 16 + 12) = '<' := rfl
  have cgt : Char.ofNat (((0 * 16 + 0) * 16 + 3) * 16 + 14) = '>' := rfl
  have camp : Char.ofNat (((0 * 16 + 0) * 16 + 2) * 16 + 6) = '&' := rfl
  by_cases h1 : c = '"'
  · subst h1; rw [parseJStringAux.eq_def]; simp [escapeChar, h]
  by_cases h2 : c = '\\'
  · subst h2; rw [parseJStringAux.eq_def]; simp [escapeChar, h]
  by_cases h3 : c = '\n'
  · subst h3; rw [parseJStringAux.eq_def]; simp [escapeChar, h]
  by_cases h4 : c = '\r'
  · subst h4; rw [parseJStringAux.eq_def]; simp [escapeChar, h]
  by_cases h5 : c = '\t'
  · subst h5; rw [parseJStringAux.eq_def]; simp [escapeChar, h]
  by_cases h6 : c = '<'
  · subst h6; rw [parseJStringAux.eq_def]; simp [escapeChar, h, d0, d3, dc, clt]
  by_cases h7 : c = '>'
  · subst h7; rw [parseJStringAux.eq_def]; simp [escapeChar, h, d0, d3, de, cgt]
  by_cases h8 : c = '&'
  · subst h8; rw [parseJStringAux.eq_def]; simp [escapeChar, h, d0, d2, d6, camp]
  by_cases h9 : c.toNat < 32
  · have e : escapeChar c =
        ['\\', 'u', '0', '0', hexDigitChar (c.toNat / 16), hexDigitChar (c.toNat % 16)] := by
      simp [escapeChar, h1, h2, h3, h4, h5, h6, h7, h8, h9]
    have hd1 := decodeHexDigit_hexDigitChar (c.toNat / 16) (by omega)
    have hd2 := decodeHexDigit_hexDigitChar (c.toNat % 16) (by omega)
    have hc : Char.ofNat (((0 * 16 + 0) * 16 + c.toNat / 16) * 16 + c.toNat % 16) = c := by
      rw [show ((0 * 16 + 0) * 16 + c.toNat / 16) * 16 + c.toNat % 16 = c.toNat from by omega,
        Char.ofNat_toNat]
    have hc2 : Char.ofNat (c.toNat / 16 * 16 + c.toNat % 16) = c := by
      rw [show c.toNat / 16 * 16 + c.toNat % 16 = c.toNat from by omega, Char.ofNat_toNat]
    rw [e, parseJStringAux.eq_def]
    simp [h, d0, hd1, hd2, hc, hc2]
  by_cases h10 : c.toNat = 8232
  · have e : escapeChar c = ['\\', 'u', '2', '0', '2', '8'] := by
      simp [escapeChar, h1, h2, h3, h4, h5, h6, h7, h8, h9, h10]
    have hc : Char.ofNat (((2 * 16 + 0) * 16 + 2) * 16 + 8) = c := by
      rw [show ((2 * 16 + 0) * 16 + 2) * 16 + 8 = c.toNat from by omega, Char.ofNat_toNat]
    rw [e, parseJStringAux.eq_def]
    simp [h, d0, d2, d8, hc]
  by_cases h11 : c.toNat = 8233
  · have e : escapeChar c = ['\\', 'u', '2', '0', '2', '9'] := by
      simp [escapeChar, h1, h2, h3, h4, h5, h6, h7, h8, h9, h10, h11]
    have hc : Char.ofNat (((2 * 16 + 0) * 16 + 2) * 16 + 9) = c := by
      rw [show ((2 * 16 + 0) * 16 + 2) * 16 + 9 = c.toNat from by omega, Char.ofNat_toNat]
    rw [e, parseJStringAux.eq_def]
    simp [h, d0, d2, d9, hc]
  · have e : escapeChar c = [c] := by
      simp [escapeChar, h1, h2, h3, h4, h5, h6, h7, h8, h9, h10, h11]
    rw [e, parseJStringAux.eq_def]
    simp only [List.cons_append, List.nil_append]
    rw [if_neg h1, if_neg h2, h]

lemma parseJStringAux_escListAux (s rest : List Char) :
    parseJStringAux (escListAux s ++ '"' :: rest) = some (s, rest) := by
  induction s with
  | nil =>
    rw [show escListAux [] ++ '"' :: rest = '"' :: rest from rfl, parseJStringAux.eq_def]
    simp
  | cons c cs ih =>
    have he : escListAux (c :: cs) ++ '"' :: rest = escapeChar c ++ (escListAux cs ++ '"' :: rest) := by
      simp [escListAux, List.append_assoc]
    rw [he]
    exact parseJStringAux_escapeChar c _ _ _ ih

lemma parseJStringL_quote (s : String) (rest : List Char) :
    parseJStringL (quoteJString s ++ rest) = some (s, rest) := by
  obtain ⟨d⟩ := s
  have : quoteJString ⟨d⟩ ++ rest = '"' :: (escListAux d ++ '"' :: rest) := by
    simp [quoteJString, List.append_assoc]
  rw [this]
  simp [parseJStringL, parseJStringAux_escListAux]

lemma parsePresetL_render (p : Preset) (rest : List Char) :
    parsePresetL (renderPresetL p ++ rest) = some (p, rest) := by
  obtain ⟨nm, u⟩ := p
  have h0 : renderPresetL ⟨nm, u⟩ ++ rest =
      litItemPre ++ (quoteJString nm ++ (litItemMid ++ (quoteJString u ++ (litItemPost ++ rest)))) := by
    simp [renderPresetL, List.append_assoc]
  rw [h0]
  simp [parsePresetL, expectChars_append, parseJStringL_quote]

lemma parseItemsRest_render (ps : List Preset) (fuel : Nat) (rest : List Char)
    (h : ps.length < fuel) :
    parseItemsRest fuel (renderRestL ps ++ (litArrClose ++ rest)) = some (ps, rest) := by
  induction ps generalizing fuel with
  | nil =>
    cases fuel with
    | zero => omega
    | succ f => simp [renderRestL, parseItemsRest, expectChars_append]
  | cons p ps ih =>
    cases fuel with
    | zero => omega
    | succ f =>
      have hshape : renderRestL (p :: ps) ++ (litArrClose ++ rest) =
          litSep ++ (renderPresetL p ++ (renderRestL ps ++ (litArrClose ++ rest))) := by
        simp [renderRestL, List.append_assoc]
      have hclose : expectChars litArrClose (renderRestL (p :: ps) ++ (litArrClose ++ rest)) = none := by
        rw [hshape]
        simp [litSep, litArrClose, expectChars]
      rw [parseItemsRest, hclose, hshape]
      simp [expectChars_append, parsePresetL_render, ih f (by simpa using Nat.lt_of_succ_lt_succ h)]

lemma parsePresetsL_render (ps : List Preset) (fuel : Nat) (rest : List Char)
    (h : ps.length ≤ fuel) :
    parsePresetsL fuel (renderPresetsL ps ++ rest) = some (ps, rest) := by
  cases ps with
  | nil => simp [renderPresetsL, parsePresetsL, expectChars_append]
  | cons p ps =>
    have hshape : renderPresetsL (p :: ps) ++ rest =
        litArrOpen ++ (renderPresetL p ++ (renderRestL ps ++ (litArrClose ++ rest))) := by
      simp [renderPresetsL, List.append_assoc]
    have hempty : expectChars litArrEmpty (renderPresetsL (p :: ps) ++ rest) = none := by
      rw [hshape]
      simp [litArrEmpty, litArrOpen, expectChars]
    rw [parsePresetsL, hempty, hshape]
    simp [expectChars_append, parsePresetL_render,
      parseItemsRest_render ps fuel _ (by simpa using Nat.lt_of_succ_le h)]

lemma renderRestL_length (ps : List Preset) : ps.length ≤ (renderRestL ps).length := by
  induction ps with
  | nil => simp [renderRestL]
  | cons p ps ih =>
    have : (renderRestL (p :: ps)).length =
        litSep.length + ((renderPresetL p).length + (renderRestL ps).length) := by
      simp [renderRestL]
    rw [this]
    have hsep : litSep.length = 2 := rfl
    simp only [List.length_cons]
    omega

lemma renderPresetsL_length (ps : List Preset) : ps.length ≤ (renderPresetsL ps).length := by
  cases ps with
  | nil => simp [renderPresetsL, litArrEmpty]
  | cons p ps =>
    have : (renderPresetsL (p :: ps)).length =
        litArrOpen.length + ((renderPresetL p).length + ((renderRestL ps).length + litArrClose.length)) := by
      simp [renderPresetsL]
    rw [this]
    have := renderRestL_length ps
    have hopen : litArrOpen.length = 2 := rfl
    simp only [List.length_cons]
    omega

lemma parseConfig_marshal (c : Config) : parseConfigStr (marshalConfig c) = some c := by
  obtain ⟨ps⟩ := c
  have hdata : (marshalConfig ⟨ps⟩).data =
      litDocPre ++ (renderPresetsL ps ++ litDocPost) := by
    simp [marshalConfig, List.append_assoc]
  have hfuel : ps.length ≤ (litDocPre ++ (renderPresetsL ps ++ litDocPost)).length := by
    have h1 := renderPresetsL_length ps
    simp only [List.length_append]
    omega
  have hpre := parsePresetsL_render ps ((litDocPre ++ (renderPresetsL ps ++ litDocPost)).length)
    litDocPost hfuel
  have hpost : expectChars litDocPost litDocPost = some [] := by
    simpa using expectChars_append litDocPost []
  simp only [List.length_append] at hpre
  simp only [parseConfigStr, parseConfigL, hdata]
  rw [expectChars_append]
  simp [hpre, hpost]

lemma update_add_enter (W : Widgets) (m : Model) (d : Disk) (h : m.state = .addPresetView)
    (hn : trimSpace m.nameInput ≠ "") (hu : trimSpace m.urlInput ≠ "") :
    update W m (.keyMsg "enter") d =
      ⟨{ refreshList { m with config := ⟨m.config.presets ++ [⟨trimSpace m.nameInput, trimSpace m.urlInput⟩]⟩ }
           with state := .managePresetsView },
        .none,
        (saveConfig ⟨m.config.presets ++ [⟨trimSpace m.nameInput, trimSpace m.urlInput⟩]⟩ d).1⟩ := by
  simp [update, handleKey, h, hn, hu]

lemma update_add_reject (W : Widgets) (m : Model) (d : Disk) (h : m.state = .addPresetView)
    (hr : trimSpace m.nameInput = "" ∨ trimSpace m.urlInput = "") :
    update W m (.keyMsg "enter") d = ⟨m, .none, d⟩ := by
  have : ¬ (trimSpace m.nameInput ≠ "" ∧ trimSpace m.urlInput ≠ "") := by tauto
  simp only [update, handleKey, h]
  simp [this]

lemma update_edit_enter (W : Widgets) (m : Model) (d : Disk) (h : m.state = .editPresetView)
    (hn : trimSpace m.nameInput ≠ "") (hu : trimSpace m.urlInput ≠ "")
    (hi : m.selectedIndex < m.config.presets.length) :
    update W m (.keyMsg "enter") d =
      ⟨{ refreshList { m with config :=
            ⟨m.config.presets.set m.selectedIndex ⟨trimSpace m.nameInput, trimSpace m.urlInput⟩⟩ }
           with state := .managePresetsView },
        .none,
        (saveConfig ⟨m.config.presets.set m.selectedIndex ⟨trimSpace m.nameInput, trimSpace m.urlInput⟩⟩ d).1⟩ := by
  simp [update, handleKey, h, hn, hu, hi]

lemma update_delete_confirm (W : Widgets) (m : Model) (d : Disk) (k : String)
    (h : m.state = .deleteConfirmView) (hk : k = "y" ∨ k = "Y")
    (hi : m.selectedIndex < m.config.presets.length) :
    update W m (.keyMsg k) d =
      ⟨{ refreshList { m with config := ⟨m.config.presets.eraseIdx m.selectedIndex⟩ }
           with state := .managePresetsView },
        .none,
        (saveConfig ⟨m.config.presets.eraseIdx m.selectedIndex⟩ d).1⟩ := by
  rcases hk with hk | hk <;> subst hk <;> simp [update, handleKey, h, hi]

lemma update_delete_invalid (W : Widgets) (m : Model) (d : Disk) (k : String)
    (h : m.state = .deleteConfirmView) (hk : k = "y" ∨ k = "Y")
    (hi : ¬ m.selectedIndex < m.config.presets.length) :
    update W m (.keyMsg k) d = ⟨{ m with state := .managePresetsView }, .none, d⟩ := by
  rcases hk with hk | hk <;> subst hk <;> simp [update, handleKey, h, hi]

lemma update_delete_cancel (W : Widgets) (m : Model) (d : Disk) (k : String)
    (h : m.state = .deleteConfirmView) (hk : k = "n" ∨ k = "N" ∨ k = "esc") :
    update W m (.keyMsg k) d = ⟨{ m with state := .managePresetsView }, .none, d⟩ := by
  rcases hk with hk | hk | hk <;> subst hk <;> simp [update, handleKey, h]

lemma update_restore_confirm (W : Widgets) (m : Model) (d : Disk) (k : String)
    (h : m.state = .restoreDefaultsConfirmView) (hk : k = "y" ∨ k = "Y") :
    update W m (.keyMsg k) d =
      ⟨{ refreshList { m with config := getDefaultConfig } with state := .managePresetsView },
        .none, (saveConfig getDefaultConfig d).1⟩ := by
  rcases hk with hk | hk <;> subst hk <;> simp [update, handleKey, h]

lemma refreshList_items (m : Model) : (refreshList m).list.items = m.config.presets := rfl

lemma refreshList_invariant (m : Model) :
    (refreshList m).list.items.length = (refreshList m).config.presets.length ∧
    (0 < (refreshList m).config.presets.length →
      (refreshList m).list.cursor < (refreshList m).config.presets.length) := by
  constructor
  · rfl
  · intro hpos
    have hpos' : 0 < m.config.presets.length := hpos
    show (m.list.setItems m.config.presets).cursor < m.config.presets.length
    rw [ListModel.setItems]
    have hne : ¬ m.config.presets.length = 0 := by omega
    simp only [hne, if_false]
    have := Nat.min_le_right m.list.cursor (m.config.presets.length - 1)
    omega

lemma get?_eraseIdx_split {α : Type _} (l : List α) (i j : Nat) :
    (l.eraseIdx i).get? j = if j < i then l.get? j else l.get? (j + 1) := by
  induction l generalizing i j with
  | nil => simp [List.eraseIdx]
  | cons a l ih =>
    cases i with
    | zero => simp [List.eraseIdx]
    | succ i =>
      cases j with
      | zero => simp [List.eraseIdx]
      | succ j =>
        simp only [List.eraseIdx, List.get?]
        rw [ih i j]
        by_cases hij : j < i
        · simp [hij, Nat.succ_lt_succ hij]
        · have : ¬ (j + 1 < i + 1) := by omega
          simp [hij, this]

/-- A small concrete configuration used to evaluate the theorems on
concrete inputs. -/
def sampleConfig : Config := ⟨[⟨"A", "u1"⟩, ⟨"B", "u2"⟩, ⟨"C", "u3"⟩]⟩

/-- A disk with no config file, writable. -/
def emptyDisk : Disk := ⟨.absent, true⟩

/-- A disk whose writes fail. -/
def roDisk : Disk := ⟨.absent, false⟩

/-- A disk whose config file exists but cannot be read. -/
def unreadableDisk : Disk := ⟨.unreadable, true⟩

/-- A concrete model sitting in the add-preset form with filled inputs. -/
def addModel : Model :=
  { mkModel sampleConfig with
    state := .addPresetView, nameInput := " Test ", urlInput := " https://x/y " }

/-- A concrete model in the add-preset form whose name trims to empty. -/
def addRejectModel : Model :=
  { mkModel sampleConfig with state := .addPresetView, nameInput := "   ", urlInput := "u" }

/-- A concrete model in the loading state. -/
def loadingModel : Model := { mkModel sampleConfig with state := .loadingView }

/-- A concrete model in the delete-confirmation state remembering index 1. -/
def delModel : Model :=
  { mkModel sampleConfig with state := .deleteConfirmView, selectedIndex := 1 }

/-- A concrete model in the custom-URL form holding whitespace-only text. -/
def customModel : Model :=
  { mkModel sampleConfig with state := .customURLView, textInput := "   " }

/-- A concrete model managing an empty preset list. -/
def emptyManageModel : Model := { mkModel ⟨[]⟩ with state := .managePresetsView }

/-- C1: in the AddPreset state, a confirm-key event with both fields
non-empty after trimming appends the trimmed entry at the end of the
configuration, persists it, refreshes the list and transitions to
ManagePresets; with either trimmed field empty the submission is silently
rejected: the model (state included) and the disk are unchanged. -/
theorem claim_C1 (W : Widgets) (m : Model) (d : Disk) (h : m.state = .addPresetView) :
    (trimSpace m.nameInput ≠ "" → trimSpace m.urlInput ≠ "" →
      update W m (.keyMsg "enter") d =
        ⟨{ refreshList { m with config :=
              ⟨m.config.presets ++ [⟨trimSpace m.nameInput, trimSpace m.urlInput⟩]⟩ }
             with state := .managePresetsView },
          .none,
          (saveConfig ⟨m.config.presets ++ [⟨trimSpace m.nameInput, trimSpace m.urlInput⟩]⟩ d).1⟩) ∧
    (trimSpace m.nameInput = "" ∨ trimSpace m.urlInput = "" →
      update W m (.keyMsg "enter") d = ⟨m, .none, d⟩) :=
  ⟨fun hn hu => update_add_enter W m d h hn hu, fun hr => update_add_reject W m d h hr⟩

/-- Witness for C1 at a concrete model: the add is applied (trimmed entry
appended, state ManagePresets) and the whitespace-name submission leaves
everything unchanged. -/
theorem claim_C1_witness :
    (update idWidgets addModel (.keyMsg "enter") emptyDisk).model.config.presets =
      sampleConfig.presets ++ [⟨"Test", "https://x/y"⟩] ∧
    (update idWidgets addModel (.keyMsg "enter") emptyDisk).model.state = .managePresetsView ∧
    update idWidgets addRejectModel (.keyMsg "enter") emptyDisk = ⟨addRejectModel, .none, emptyDisk⟩ := by
  have h1 := (claim_C1 idWidgets addModel emptyDisk rfl).1 (by decide) (by decide)
  have h2 := (claim_C1 idWidgets addRejectModel emptyDisk rfl).2 (Or.inl (by decide))
  refine ⟨?_, ?_, h2⟩
  · rw [h1]; decide
  · rw [h1]

/-- C2: a resolution-failure message received in the Loading state
returns the machine to MainMenu with the configuration, the list (items
and highlighted index) and the disk all unchanged, and no command. -/
theorem claim_C2 (W : Widgets) (m : Model) (d : Disk) (url : String)
    (h : m.state = .loadingView) :
    update W m (.streamURLMsg url true) d = ⟨{ m with state := .mainMenuView }, .none, d⟩ ∧
    (update W m (.streamURLMsg url true) d).model.config = m.config ∧
    (update W m (.streamURLMsg url true) d).model.list = m.list ∧
    (update W m (.streamURLMsg url true) d).disk = d := by
  have he : update W m (.streamURLMsg url true) d =
      ⟨{ m with state := .mainMenuView }, .none, d⟩ := by
    simp [update]
  exact ⟨he, by rw [he], by rw [he], by rw [he]⟩

/-- Witness for C2 at a concrete loading model. -/
theorem claim_C2_witness :
    update idWidgets loadingModel (.streamURLMsg "u" true) emptyDisk =
      ⟨{ loadingModel with state := .mainMenuView }, .none, emptyDisk⟩ :=
  (claim_C2 idWidgets loadingModel emptyDisk "u" rfl).1

/-- C3: `loadConfig` returns the fixed defaults without error when the
file is absent, an IO error when the file is unreadable, and a parse
error (not defaults) on malformed contents; on any load error the
startup code uses the defaults and attempts a save whose failure is
ignored. -/
theorem claim_C3 :
    loadConfig .absent = .ok getDefaultConfig ∧
    loadConfig .unreadable = .error .ioError ∧
    (∀ s, parseConfigStr s = none → loadConfig (.contents s) = .error .parseError) ∧
    (∀ (d : Disk) (e : ConfigError), loadConfig d.file = .error e →
      initialModel d = (mkModel getDefaultConfig, (saveConfig getDefaultConfig d).1)) := by
  refine ⟨rfl, rfl, fun s hs => ?_, fun d e he => ?_⟩
  · have e1 : loadConfig (.contents s) =
        (match parseConfigStr s with
          | some c => Except.ok c
          | none => Except.error ConfigError.parseError) := rfl
    rw [e1, hs]
  · have e2 : initialModel d =
        (match loadConfig d.file with
          | .ok c => (mkModel c, d)
          | .error _ => (mkModel getDefaultConfig, (saveConfig getDefaultConfig d).1)) := rfl
    rw [e2, he]

/-- Witness for C3: a concrete malformed content is rejected with a parse
error, and startup on an unreadable disk falls back to defaults and
attempts the initial save. -/
theorem claim_C3_witness :
    loadConfig (.contents "oops") = .error .parseError ∧
    initialModel unreadableDisk =
      (mkModel getDefaultConfig, (saveConfig getDefaultConfig unreadableDisk).1) :=
  ⟨claim_C3.2.2.1 "oops" rfl, claim_C3.2.2.2 unreadableDisk .ioError rfl⟩

/-- C4: in DeleteConfirm, the yes-keys remove the entry at the remembered
index exactly when the index is still valid (every later entry shifting
down by one, earlier entries unchanged), persist and refresh, landing in
ManagePresets either way; the no/cancel keys return to ManagePresets with
everything unchanged. -/
theorem claim_C4 (W : Widgets) (m : Model) (d : Disk) (h : m.state = .deleteConfirmView) :
    (m.selectedIndex < m.config.presets.length →
      (∀ k, k = "y" ∨ k = "Y" →
        update W m (.keyMsg k) d =
          ⟨{ refreshList { m with config := ⟨m.config.presets.eraseIdx m.selectedIndex⟩ }
               with state := .managePresetsView },
            .none, (saveConfig ⟨m.config.presets.eraseIdx m.selectedIndex⟩ d).1⟩) ∧
      (∀ j, (m.config.presets.eraseIdx m.selectedIndex).get? j =
        if j < m.selectedIndex then m.config.presets.get? j
        else m.config.presets.get? (j + 1))) ∧
    (¬ m.selectedIndex < m.config.presets.length →
      ∀ k, k = "y" ∨ k = "Y" →
        update W m (.keyMsg k) d = ⟨{ m with state := .managePresetsView }, .none, d⟩) ∧
    (∀ k, k = "n" ∨ k = "N" ∨ k = "esc" →
      update W m (.keyMsg k) d = ⟨{ m with state := .managePresetsView }, .none, d⟩) :=
  ⟨fun hi => ⟨fun k hk => update_delete_confirm W m d k h hk hi,
      fun j => get?_eraseIdx_split _ _ _⟩,
    fun hi k hk => update_delete_invalid W m d k h hk hi,
    fun k hk => update_delete_cancel W m d k h hk⟩

/-- Witness for C4 at a concrete model: deleting remembered index 1 keeps
entries 0 and 2 (shifted down), and cancelling changes nothing. -/
theorem claim_C4_witness :
    (update idWidgets delModel (.keyMsg "y") emptyDisk).model.config.presets =
      [⟨"A", "u1"⟩, ⟨"C", "u3"⟩] ∧
    update idWidgets delModel (.keyMsg "n") emptyDisk =
      ⟨{ delModel with state := .managePresetsView }, .none, emptyDisk⟩ := by
  have h := claim_C4 idWidgets delModel emptyDisk rfl
  have h1 := (h.1 (by decide)).1 "y" (Or.inl rfl)
  have h2 := h.2.2 "n" (Or.inl rfl)
  refine ⟨?_, h2⟩
  rw [h1]; decide

/-- C5: after any of the four mutating operations (confirmed add,
confirmed edit, confirmed delete, confirmed restore-defaults) the list's
item count equals the configuration's entry count and the highlighted
index lies within range whenever the count is non-zero. -/
theorem claim_C5 (W : Widgets) (m : Model) (msg : Msg) (d : Disk) (h : mutatingEvent m msg) :
    (update W m msg d).model.list.items.length = (update W m msg d).model.config.presets.length ∧
    (0 < (update W m msg d).model.config.presets.length →
      (update W m msg d).model.list.cursor < (update W m msg d).model.config.presets.length) := by
  rcases h with ⟨hs, hm, hn, hu⟩ | ⟨hs, hm, hn, hu, hi⟩ | ⟨hs, hm, hi⟩ | ⟨hs, hm⟩
  · subst hm
    rw [update_add_enter W m d hs hn hu]
    exact refreshList_invariant _
  · subst hm
    rw [update_edit_enter W m d hs hn hu hi]
    exact refreshList_invariant _
  · rcases hm with hm | hm <;> subst hm
    · rw [update_delete_confirm W m d "y" hs (Or.inl rfl) hi]
      exact refreshList_invariant _
    · rw [update_delete_confirm W m d "Y" hs (Or.inr rfl) hi]
      exact refreshList_invariant _
  · rcases hm with hm | hm <;> subst hm
    · rw [update_restore_confirm W m d "y" hs (Or.inl rfl)]
      exact refreshList_invariant _
    · rw [update_restore_confirm W m d "Y" hs (Or.inr rfl)]
      exact refreshList_invariant _

/-- Witness for C5 at a concrete confirmed delete. -/
theorem claim_C5_witness :
    (update idWidgets delModel (.keyMsg "y") emptyDisk).model.list.items.length =
      (update idWidgets delModel (.keyMsg "y") emptyDisk).model.config.presets.length ∧
    (update idWidgets delModel (.keyMsg "y") emptyDisk).model.list.cursor <
      (update idWidgets delModel (.keyMsg "y") emptyDisk).model.config.presets.length := by
  have h := claim_C5 idWidgets delModel (.keyMsg "y") emptyDisk (by decide)
  exact ⟨h.1, h.2 (by decide)⟩

/-- Counterexample to C6 as stated: with an empty list (no entry
selected) the delete-key in ManagePresets is not a no-op — the state
machine still transitions to DeleteConfirm. -/
theorem claim_C6_counterexample :
    emptyManageModel.state = .managePresetsView ∧
    emptyManageModel.list.selectedItem = none ∧
    (update idWidgets emptyManageModel (.keyMsg "d") emptyDisk).model.state = .deleteConfirmView := by
  refine ⟨rfl, rfl, ?_⟩
  decide

/-- C6 (amended): in ManagePresets the delete-keys ("d" or "x") always
transition to DeleteConfirm and remember the current highlighted index,
with no guard on an entry being selected; on an empty list the
subsequent confirmation then deletes nothing because the remembered
index is invalid. -/
theorem claim_C6_amended (W : Widgets) (m : Model) (d : Disk) (k : String)
    (h : m.state = .managePresetsView) (hk : k = "d" ∨ k = "x") :
    update W m (.keyMsg k) d =
      ⟨{ m with state := .deleteConfirmView, selectedIndex := m.list.cursor }, .none, d⟩ := by
  rcases hk with hk | hk <;> subst hk <;> simp [update, handleKey, h]

/-- Witness for the amended C6 at the concrete empty-list model. -/
theorem claim_C6_witness :
    update idWidgets emptyManageModel (.keyMsg "x") emptyDisk =
      ⟨{ emptyManageModel with state := .deleteConfirmView, selectedIndex := 0 }, .none, emptyDisk⟩ :=
  claim_C6_amended idWidgets emptyManageModel emptyDisk "x" rfl (Or.inr rfl)

/-- C7: in the Loading state every key press only advances the spinner
widget — state, configuration, list and disk are untouched and no command
is issued — and the only messages after which the state is no longer
Loading are a resolver result or a playback-ended message. -/
theorem claim_C7 (W : Widgets) (m : Model) (d : Disk) (h : m.state = .loadingView) :
    (∀ k : String, update W m (.keyMsg k) d =
      ⟨{ m with spinner := W.spinnerUpdate m.spinner (.keyMsg k) }, .none, d⟩) ∧
    (∀ msg : Msg, (update W m msg d).model.state ≠ .loadingView →
      (∃ u e, msg = .streamURLMsg u e) ∨ msg = .streamEndedMsg) := by
  constructor
  · intro k
    simp [update, handleKey, widgetDispatch, h]
  · intro msg hm
    cases msg with
    | streamURLMsg u e => exact Or.inl ⟨u, e, rfl⟩
    | streamEndedMsg => exact Or.inr rfl
    | windowSizeMsg w hh => exact absurd (by simp [update, h]) hm
    | keyMsg k => exact absurd (by simp [update, handleKey, widgetDispatch, h]) hm
    | spinnerTickMsg => exact absurd (by simp [update, widgetDispatch, h]) hm

/-- Witness for C7 at a concrete loading model: the quit key changes
nothing, and a playback-ended message is among the permitted exits. -/
theorem claim_C7_witness :
    update idWidgets loadingModel (.keyMsg "q") emptyDisk = ⟨loadingModel, .none, emptyDisk⟩ ∧
    ((∃ u e, (Msg.streamEndedMsg : Msg) = .streamURLMsg u e) ∨
      (Msg.streamEndedMsg : Msg) = .streamEndedMsg) := by
  have h := claim_C7 idWidgets loadingModel emptyDisk rfl
  constructor
  · have h1 := h.1 "q"
    simpa [idWidgets] using h1
  · exact h.2 .streamEndedMsg (by decide)

/-- C8: serialization is a fixed function of the entry order, and for
every on-disk content `saveConfig` can produce, loading that content
succeeds and saving the loaded configuration writes back byte-identical
content. -/
theorem claim_C8 (s : String) (h : ∃ c, marshalConfig c = s) :
    ∃ c', loadConfig (.contents s) = .ok c' ∧ marshalConfig c' = s := by
  obtain ⟨c, rfl⟩ := h
  refine ⟨c, ?_, rfl⟩
  have e1 : loadConfig (.contents (marshalConfig c)) =
      (match parseConfigStr (marshalConfig c) with
        | some c2 => Except.ok c2
        | none => Except.error ConfigError.parseError) := rfl
  rw [e1, parseConfig_marshal]

/-- Witness for C8 at a concrete configuration. -/
theorem claim_C8_witness :
    ∃ c', loadConfig (.contents (marshalConfig sampleConfig)) = .ok c' ∧
      marshalConfig c' = marshalConfig sampleConfig :=
  claim_C8 (marshalConfig sampleConfig) ⟨sampleConfig, rfl⟩

/-- C9: every mutating operation applies its change in memory, refreshes
the list and transitions to ManagePresets independently of the disk (the
`saveConfig` result is discarded): the resulting model and command do not
depend on the disk, the command is nil, and when the disk is not writable
the disk is left unchanged while a writable disk receives exactly the
serialized new configuration. -/
theorem claim_C9 (W : Widgets) (m : Model) (msg : Msg) (d d' : Disk) (h : mutatingEvent m msg) :
    (update W m msg d).model = (update W m msg d').model ∧
    (update W m msg d).cmd = .none ∧
    (update W m msg d).model.state = .managePresetsView ∧
    (update W m msg d).model.list.items = (update W m msg d).model.config.presets ∧
    (d.writable = false → (update W m msg d).disk = d) ∧
    (d.writable = true →
      (update W m msg d).disk.file = .contents (marshalConfig (update W m msg d).model.config)) := by
  rcases h with ⟨hs, hm, hn, hu⟩ | ⟨hs, hm, hn, hu, hi⟩ | ⟨hs, hm, hi⟩ | ⟨hs, hm⟩
  · subst hm
    rw [update_add_enter W m d hs hn hu, update_add_enter W m d' hs hn hu]
    exact ⟨rfl, rfl, rfl, rfl, fun hw => by simp [saveConfig, refreshList, hw], fun hw => by simp [saveConfig, refreshList, hw]⟩
  · subst hm
    rw [update_edit_enter W m d hs hn hu hi, update_edit_enter W m d' hs hn hu hi]
    exact ⟨rfl, rfl, rfl, rfl, fun hw => by simp [saveConfig, refreshList, hw], fun hw => by simp [saveConfig, refreshList, hw]⟩
  · rcases hm with hm | hm <;> subst hm
    · rw [update_delete_confirm W m d "y" hs (Or.inl rfl) hi,
        update_delete_confirm W m d' "y" hs (Or.inl rfl) hi]
      exact ⟨rfl, rfl, rfl, rfl, fun hw => by simp [saveConfig, refreshList, hw], fun hw => by simp [saveConfig, refreshList, hw]⟩
    · rw [update_delete_confirm W m d "Y" hs (Or.inr rfl) hi,
        update_delete_confirm W m d' "Y" hs (Or.inr rfl) hi]
      exact ⟨rfl, rfl, rfl, rfl, fun hw => by simp [saveConfig, refreshList, hw], fun hw => by simp [saveConfig, refreshList, hw]⟩
  · rcases hm with hm | hm <;> subst hm
    · rw [update_restore_confirm W m d "y" hs (Or.inl rfl),
        update_restore_confirm W m d' "y" hs (Or.inl rfl)]
      exact ⟨rfl, rfl, rfl, rfl, fun hw => by simp [saveConfig, refreshList, hw], fun hw => by simp [saveConfig, refreshList, hw]⟩
    · rw [update_restore_confirm W m d "Y" hs (Or.inr rfl),
        update_restore_confirm W m d' "Y" hs (Or.inr rfl)]
      exact ⟨rfl, rfl, rfl, rfl, fun hw => by simp [saveConfig, refreshList, hw], fun hw => by simp [saveConfig, refreshList, hw]⟩

/-- Witness for C9: a concrete confirmed delete produces the same model
on a failing disk as on a working one, and leaves the failing disk
untouched. -/
theorem claim_C9_witness :
    (update idWidgets delModel (.keyMsg "y") roDisk).model =
      (update idWidgets delModel (.keyMsg "y") emptyDisk).model ∧
    (update idWidgets delModel (.keyMsg "y") roDisk).disk = roDisk := by
  have h := claim_C9 idWidgets delModel (.keyMsg "y") roDisk emptyDisk (by decide)
  exact ⟨h.1, h.2.2.2.2.1 rfl⟩

/-- C10: in the CustomURLEntry state the confirm-key performs no
trimming: any non-empty text (whitespace-only included) moves to Loading
with the text passed verbatim to the resolver, the field being cleared;
the cancel keys clear the field and return to MainMenu. -/
theorem claim_C10 (W : Widgets) (m : Model) (d : Disk) (h : m.state = .customURLView) :
    (m.textInput ≠ "" →
      update W m (.keyMsg "enter") d =
        ⟨{ m with state := .loadingView, loadingTitle := "Custom Stream", textInput := "" },
          .resolveAndPlay m.textInput, d⟩) ∧
    (∀ k, k = "esc" ∨ k = "ctrl+c" →
      update W m (.keyMsg k) d =
        ⟨{ m with state := .mainMenuView, textInput := "" }, .none, d⟩) := by
  constructor
  · intro hne
    simp [update, handleKey, h, hne]
  · intro k hk
    rcases hk with hk | hk <;> subst hk <;> simp [update, handleKey, h]

/-- Witness for C10 at a whitespace-only input: confirmed verbatim, and
cancel clears. -/
theorem claim_C10_witness :
    update idWidgets customModel (.keyMsg "enter") emptyDisk =
      ⟨{ customModel with state := .loadingView, loadingTitle := "Custom Stream", textInput := "" },
        .resolveAndPlay "   ", emptyDisk⟩ ∧
    update idWidgets customModel (.keyMsg "esc") emptyDisk =
      ⟨{ customModel with state := .mainMenuView, textInput := "" }, .none, emptyDisk⟩ := by
  have h := claim_C10 idWidgets customModel emptyDisk rfl
  exact ⟨h.1 (by decide), h.2 "esc" (Or.inl rfl)⟩

end Lofitui
